import Mathlib

/-!
Shallow embedding of the load-shaping and request-execution core of the
locust performance framework (src/load-shaping/Phase.py,
src/load-shaping/LoadProfileFactory.py, src/load-shaping/LoadShapeTest.py,
src/locust_tasks/base.py), together with theorems settling the frozen
claims about it.

Python floats are modelled as rationals (ℚ), Python ints as ℤ.  A Python
function that can raise is modelled with Option (none = the exception).
-/

namespace Locust

/-- A decoded JSON value, as far as the embedded code inspects one. -/
inductive JVal where
  | jnum (n : ℤ)
  | jstr (s : String)
  | jbool (b : Bool)
  | jnull
  deriving DecidableEq, Repr

/-- Python `int(x)` on a rational: truncation toward zero. -/
def ratTrunc (q : ℚ) : ℤ := if q < 0 then ⌈q⌉ else ⌊q⌋

/-- Embeds `Phase.__init__` (src/load-shaping/Phase.py). -/
structure Phase where
  start_time : ℚ
  duration : ℚ
  user_start : ℤ
  user_end : ℤ
  spawn_rate : ℚ
  deriving DecidableEq, Repr

/-- Embeds `Phase.user_count_at` (src/load-shaping/Phase.py lines 9-16):
outside `[start_time, start_time+duration]` returns None; a zero-duration
phase returns `user_end`; otherwise linear interpolation truncated by
Python's `int(...)`. -/
def Phase.user_count_at (p : Phase) (t : ℚ) : Option ℤ :=
  if t < p.start_time ∨ t > p.start_time + p.duration then
    none
  else if p.duration = 0 then
    some p.user_end
  else
    some (ratTrunc (p.user_start + (p.user_end - p.user_start) * ((t - p.start_time) / p.duration)))

/-- Embeds `LoadProfileFactory.__init__`: `phases = []`, `current_time = 0`. -/
structure LoadProfileFactory where
  phases : List Phase
  current_time : ℚ
  deriving DecidableEq, Repr

/-- The freshly constructed builder. -/
def LoadProfileFactory.init : LoadProfileFactory := ⟨[], 0⟩

/-- Embeds `LoadProfileFactory.spike`: appends
`Phase(current_time, 0.1, users, users, users)` and advances the cursor
by `0.1`. -/
def LoadProfileFactory.spike (f : LoadProfileFactory) (users : ℤ) : LoadProfileFactory :=
  { phases := f.phases ++ [⟨f.current_time, 1/10, users, users, (users : ℚ)⟩],
    current_time := f.current_time + 1/10 }

/-- Embeds `LoadProfileFactory.ramp_up`: `from_users` is the last phase's
`user_end` (0 on an empty builder); spawn rate `(to_users - from_users) /
duration`.  Python raises ZeroDivisionError when `duration == 0`, modelled
as `none`. -/
def LoadProfileFactory.ramp_up (f : LoadProfileFactory) (to_users : ℤ) (duration : ℚ) :
    Option LoadProfileFactory :=
  if duration = 0 then none
  else
    let from_users : ℤ := match f.phases.getLast? with
      | some p => p.user_end
      | none => 0
    some { phases := f.phases ++
             [⟨f.current_time, duration, from_users, to_users, ((to_users : ℚ) - (from_users : ℚ)) / duration⟩],
           current_time := f.current_time + duration }

/-- Embeds `LoadProfileFactory.steady_users`: flat phase with spawn rate 1. -/
def LoadProfileFactory.steady_users (f : LoadProfileFactory) (users : ℤ) (duration : ℚ) :
    LoadProfileFactory :=
  { phases := f.phases ++ [⟨f.current_time, duration, users, users, 1⟩],
    current_time := f.current_time + duration }

/-- Embeds `LoadProfileFactory.stress_ramp`: explicit start value; Python
raises ZeroDivisionError when `duration == 0`, modelled as `none`. -/
def LoadProfileFactory.stress_ramp (f : LoadProfileFactory) (from_users to_users : ℤ)
    (duration : ℚ) : Option LoadProfileFactory :=
  if duration = 0 then none
  else
    some { phases := f.phases ++
             [⟨f.current_time, duration, from_users, to_users, ((to_users : ℚ) - (from_users : ℚ)) / duration⟩],
           current_time := f.current_time + duration }

/-- Embeds `LoadProfileFactory.build`: returns the accumulated phase list. -/
def LoadProfileFactory.build (f : LoadProfileFactory) : List Phase := f.phases

/-- One builder directive, as invoked through the fluent API. -/
inductive Directive where
  | spike (users : ℤ)
  | ramp_up (to_users : ℤ) (duration : ℚ)
  | steady_users (users : ℤ) (duration : ℚ)
  | stress_ramp (from_users to_users : ℤ) (duration : ℚ)
  deriving DecidableEq, Repr

/-- Runs one directive on the builder (none = the directive raised). -/
def applyDirective (f : LoadProfileFactory) : Directive → Option LoadProfileFactory
  | .spike u => some (f.spike u)
  | .ramp_up tu d => f.ramp_up tu d
  | .steady_users u d => some (f.steady_users u d)
  | .stress_ramp a b d => f.stress_ramp a b d

/-- Runs a chain of directives left to right. -/
def applyAll : LoadProfileFactory → List Directive → Option LoadProfileFactory
  | f, [] => some f
  | f, d :: ds =>
    match applyDirective f d with
    | none => none
    | some g => applyAll g ds

/-- A whole fluent chain started on a fresh builder. -/
def buildProfile (ds : List Directive) : Option LoadProfileFactory :=
  applyAll LoadProfileFactory.init ds

/-- Embeds `CustomLoadShape.tick` (src/load-shaping/LoadShapeTest.py lines
35-49): scan the phases in order, return the first non-None
`user_count_at` paired with that phase's spawn rate. -/
def tick : List Phase → ℚ → Option (ℤ × ℚ)
  | [], _ => none
  | p :: rest, t =>
    match p.user_count_at t with
    | some u => some (u, p.spawn_rate)
    | none => tick rest t

/-- Spec-side restatement of the tick contract: the first phase (in
construction order) whose `user_count_at` is non-absent supplies the
result. -/
def tickSpec (phases : List Phase) (t : ℚ) : Option (ℤ × ℚ) :=
  (phases.find? fun p => (p.user_count_at t).isSome).bind fun p =>
    (p.user_count_at t).map fun u => (u, p.spawn_rate)

/-- The transport-level response visible to `make_request`: status code,
header names, the body's JSON parse result (`none` = JSONDecodeError) and
the raw body text. -/
structure Response where
  status_code : ℤ
  headers : List String
  body_json : Option (List (String × JVal))
  body_text : String
  deriving DecidableEq, Repr

/-- What one call to `BaseLocustUser.make_request` produces (src/
locust_tasks/base.py lines 250-318): the returned mapping, and whether
`response.failure(...)` was called.  On the expected status the parsed
JSON body is returned (or `{"raw_response": text}` when it does not
parse); on any other status the call is marked failed and `{}` is
returned. -/
structure MakeRequestOutcome where
  result : List (String × JVal)
  marked_failure : Bool
  deriving DecidableEq, Repr

/-- Embeds the response handling of `BaseLocustUser.make_request`. -/
def make_request (resp : Response) (expected_status : ℤ) : MakeRequestOutcome :=
  if resp.status_code = expected_status then
    match resp.body_json with
    | some data => ⟨data, false⟩
    | none => ⟨[("raw_response", JVal.jstr resp.body_text)], false⟩
  else
    ⟨[], true⟩

/-- Embeds the `RetryConfig` dataclass (src/locust_tasks/base.py lines
23-33), with `retry_on_status` already defaulted by `__post_init__`. -/
structure RetryConfig where
  max_attempts : ℤ := 3
  delay : ℚ := 1
  backoff_factor : ℚ := 2
  retry_on_status : List ℤ := [500, 502, 503, 504]
  deriving DecidableEq, Repr

/-- What the i-th transport call does: yield a response, or raise. -/
inductive AttemptOutcome where
  | response (r : Response)
  | exn
  deriving Repr

/-- How `sendRequest` ends: return a mapping, or let an exception
propagate. -/
inductive SendResult where
  | returned (m : List (String × JVal))
  | raised
  deriving DecidableEq, Repr

/-- Observable trace of one `sendRequest` call: its outcome, how many
transport calls (`make_request` invocations) it made, and the sleeps it
performed, in order. -/
structure SendTrace where
  result : SendResult
  attempts : ℕ
  delays : List ℚ
  deriving DecidableEq, Repr

/-- The retry condition of `sendRequest`:
`response.get('status_code') not in retry_on_status` is False exactly when
the mapping holds an integer under `"status_code"` that is in the list. -/
def statusRetryable (m : List (String × JVal)) (retryOn : List ℤ) : Bool :=
  match m.lookup "status_code" with
  | some (JVal.jnum n) => retryOn.contains n
  | _ => false

/-- Embeds the `while True` loop of `RequestBuilder.sendRequest` (src/
locust_tasks/base.py lines 188-224).  `attempt` is the loop's counter
(starts at 0), `calls` counts transport calls already made, `delays` the
sleeps already performed; `outcomes i` is what the (i+1)-th transport call
does.  The loop always terminates; the fuel only makes the recursion
structural, and `none` (fuel ran out) is never reached from the top-level
entry point. -/
def sendLoop (cfg : Option RetryConfig) (expected : ℤ) (outcomes : ℕ → AttemptOutcome) :
    ℕ → ℕ → List ℚ → ℕ → Option SendTrace
  | _, _, _, 0 => none
  | attempt, calls, delays, fuel + 1 =>
    match outcomes calls with
    | .exn =>
      match cfg with
      | none => some ⟨.raised, calls + 1, delays⟩
      | some c =>
        if (attempt : ℤ) ≥ c.max_attempts then
          some ⟨.raised, calls + 1, delays⟩
        else
          let d := c.delay * c.backoff_factor ^ (attempt + 1 - 1)
          sendLoop cfg expected outcomes (attempt + 1) (calls + 1) (delays ++ [d]) fuel
    | .response r =>
      let resp := make_request r expected
      match cfg with
      | none => some ⟨.returned resp.result, calls + 1, delays⟩
      | some c =>
        if (attempt + 1 : ℤ) ≥ c.max_attempts then
          some ⟨.returned resp.result, calls + 1, delays⟩
        else if ¬ statusRetryable resp.result c.retry_on_status then
          some ⟨.returned resp.result, calls + 1, delays⟩
        else
          let d := c.delay * c.backoff_factor ^ (attempt + 1 - 1)
          sendLoop cfg expected outcomes (attempt + 1) (calls + 1) (delays ++ [d]) fuel

/-- Embeds `RequestBuilder.sendRequest` restricted to its retry loop: the
URL assembly does not affect the claims.  Enough fuel is supplied for the
loop to reach its own exit. -/
def sendRequest (cfg : Option RetryConfig) (expected : ℤ) (outcomes : ℕ → AttemptOutcome) :
    Option SendTrace :=
  sendLoop cfg expected outcomes 0 0 []
    (match cfg with
     | none => 1
     | some c => c.max_attempts.toNat + 2)

/-- Embeds `ResponseValidator` (src/locust_tasks/base.py lines 35-72): the
response under test and the accumulated `(check_name, passed)` pairs. -/
structure ResponseValidator where
  response : Response
  checks : List (String × Bool)
  deriving DecidableEq, Repr

/-- Embeds `ResponseValidator.status_is`. -/
def ResponseValidator.status_is (v : ResponseValidator) (status : ℤ) : ResponseValidator :=
  { v with checks := v.checks ++ [("status", v.response.status_code == status)] }

/-- Embeds `ResponseValidator.has_header`. -/
def ResponseValidator.has_header (v : ResponseValidator) (header : String) : ResponseValidator :=
  { v with checks := v.checks ++ [("header", v.response.headers.contains header)] }

/-- Embeds `ResponseValidator.json_contains`: False when the body does not
parse as JSON. -/
def ResponseValidator.json_contains (v : ResponseValidator) (key : String) : ResponseValidator :=
  match v.response.body_json with
  | some data => { v with checks := v.checks ++ [("json_key", (data.lookup key).isSome)] }
  | none => { v with checks := v.checks ++ [("json_key", false)] }

/-- The loop body of `ResponseValidator.json_matches`: stops at the first
key that is missing or differs. -/
def jsonMatchesCheck (data : List (String × JVal)) : List (String × JVal) → Bool
  | [] => true
  | (key, value) :: rest =>
    match data.lookup key with
    | none => false
    | some w => if w ≠ value then false else jsonMatchesCheck data rest

/-- Embeds `ResponseValidator.json_matches`: one `("json_schema", _)`
entry is appended whether the subset match succeeds, fails on a key, or
the body does not parse. -/
def ResponseValidator.json_matches (v : ResponseValidator) (schema : List (String × JVal)) :
    ResponseValidator :=
  match v.response.body_json with
  | some data => { v with checks := v.checks ++ [("json_schema", jsonMatchesCheck data schema)] }
  | none => { v with checks := v.checks ++ [("json_schema", false)] }

/-- Embeds `ResponseValidator.validate`: `all(check[1] for check in
self._checks)`. -/
def ResponseValidator.validate (v : ResponseValidator) : Bool :=
  v.checks.all fun c => c.2

/-- One chained call on the validator, as issued through the fluent API. -/
inductive Check where
  | status_is (status : ℤ)
  | has_header (header : String)
  | json_contains (key : String)
  | json_matches (schema : List (String × JVal))
  deriving Repr

/-- Runs one chained call. -/
def applyCheck (v : ResponseValidator) : Check → ResponseValidator
  | .status_is s => v.status_is s
  | .has_header h => v.has_header h
  | .json_contains k => v.json_contains k
  | .json_matches sc => v.json_matches sc

/-- Runs a whole chain of calls. -/
def applyChecks (v : ResponseValidator) (cs : List Check) : ResponseValidator :=
  cs.foldl applyCheck v

/-- Spec-side outcome of one chained check against a response, read off
the contract for each validator method. -/
def checkOutcome (r : Response) : Check → Bool
  | .status_is s => r.status_code == s
  | .has_header h => r.headers.contains h
  | .json_contains k =>
    match r.body_json with
    | some data => (data.lookup k).isSome
    | none => false
  | .json_matches sc =>
    match r.body_json with
    | some data => jsonMatchesCheck data sc
    | none => false

/-! ### Helper lemmas -/

lemma ratTrunc_intCast (n : ℤ) : ratTrunc (n : ℚ) = n := by
  unfold ratTrunc
  split <;> simp

/-- The previous phase's `user_end`, 0 when the builder is still empty:
the `from_users` value that `ramp_up` inherits. -/
def lastUserEnd (f : LoadProfileFactory) : ℤ :=
  match f.phases.getLast? with
  | some p => p.user_end
  | none => 0

lemma user_count_at_start_of_pos (s d : ℚ) (a b : ℤ) (r : ℚ) (hd : 0 < d) :
    (Phase.mk s d a b r).user_count_at s = some a := by
  unfold Phase.user_count_at
  rw [if_neg, if_neg hd.ne']
  · have h0 : (s - s) / d = 0 := by rw [sub_self, zero_div]
    simp only [h0, mul_zero, add_zero]
    rw [ratTrunc_intCast]
  · push_neg
    constructor
    · exact le_refl s
    · linarith

lemma user_count_at_end_of_pos (s d : ℚ) (a b : ℤ) (r : ℚ) (hd : 0 < d) :
    (Phase.mk s d a b r).user_count_at (s + d) = some b := by
  unfold Phase.user_count_at
  rw [if_neg, if_neg hd.ne']
  · have h1 : (s + d - s) / d = 1 := by
      rw [add_sub_cancel_left, div_self hd.ne']
    simp only [h1, mul_one]
    have : ((a : ℚ) + ((b : ℚ) - (a : ℚ))) = ((b : ℤ) : ℚ) := by ring
    rw [this, ratTrunc_intCast]
  · push_neg
    constructor
    · linarith
    · exact le_refl _

/-! ### C5 -/

/-- C5: `Phase.user_count_at` returns `None` outside
`[start_time, start_time + duration]`; inside, a zero-duration phase
yields `user_end`, and otherwise the linear interpolation
`user_start + (user_end - user_start) * (t - start_time) / duration`
truncated toward zero. -/
theorem C5_user_count_at_cases (p : Phase) (t : ℚ) :
    ((t < p.start_time ∨ t > p.start_time + p.duration) → p.user_count_at t = none) ∧
    (¬(t < p.start_time ∨ t > p.start_time + p.duration) → p.duration = 0 →
      p.user_count_at t = some p.user_end) ∧
    (¬(t < p.start_time ∨ t > p.start_time + p.duration) → p.duration ≠ 0 →
      p.user_count_at t = some (ratTrunc ((p.user_start : ℚ) +
        ((p.user_end : ℚ) - (p.user_start : ℚ)) * ((t - p.start_time) / p.duration)))) := by
  unfold Phase.user_count_at
  refine ⟨fun h => by rw [if_pos h], fun h hz => ?_, fun h hz => ?_⟩
  · rw [if_neg h, if_pos hz]
  · rw [if_neg h, if_neg hz]

/-- Witness for C5: a phase from 0 to 10 users over 2 seconds, sampled at
t = 1, is inside the interval and interpolates to 5. -/
theorem C5_witness :
    (Phase.mk 0 2 0 10 5).user_count_at 1 = some 5 := by
  have h := (C5_user_count_at_cases (Phase.mk 0 2 0 10 5) 1).2.2 (by norm_num) (by norm_num)
  rw [h]
  norm_num [ratTrunc]

/-! ### C6 -/

/-- C6: every phase appended by `ramp_up` or `stress_ramp` with positive
duration d satisfies `user_count_at(start_time) = user_start` and
`user_count_at(start_time + d) = user_end` (boundary exactness). -/
theorem C6_boundary_exact (f : LoadProfileFactory) (a tu : ℤ) (d : ℚ) (hd : 0 < d)
    (g : LoadProfileFactory) (p : Phase)
    (hg : f.ramp_up tu d = some g ∨ f.stress_ramp a tu d = some g)
    (hp : g.phases.getLast? = some p) :
    p.duration = d ∧
    p.user_count_at p.start_time = some p.user_start ∧
    p.user_count_at (p.start_time + d) = some p.user_end := by
  have hphase : ∃ s : ℚ, ∃ us ue : ℤ, ∃ r : ℚ, p = Phase.mk s d us ue r := by
    rcases hg with hg | hg
    · unfold LoadProfileFactory.ramp_up at hg
      rw [if_neg hd.ne'] at hg
      obtain rfl : _ = g := Option.some_injective _ hg
      rw [List.getLast?_concat] at hp
      obtain rfl : _ = p := Option.some_injective _ hp
      exact ⟨_, _, _, _, rfl⟩
    · unfold LoadProfileFactory.stress_ramp at hg
      rw [if_neg hd.ne'] at hg
      obtain rfl : _ = g := Option.some_injective _ hg
      rw [List.getLast?_concat] at hp
      obtain rfl : _ = p := Option.some_injective _ hp
      exact ⟨_, _, _, _, rfl⟩
  obtain ⟨s, us, ue, r, rfl⟩ := hphase
  exact ⟨rfl, user_count_at_start_of_pos s d us ue r hd,
    user_count_at_end_of_pos s d us ue r hd⟩

/-- Witness for C6: `stress_ramp(5, 15, 10)` on a fresh builder yields a
phase that hits 5 at its start and 15 at its end. -/
theorem C6_witness :
    (Phase.mk 0 10 5 15 1).duration = 10 ∧
    (Phase.mk 0 10 5 15 1).user_count_at ((Phase.mk 0 10 5 15 1).start_time) = some 5 ∧
    (Phase.mk 0 10 5 15 1).user_count_at ((Phase.mk 0 10 5 15 1).start_time + 10) = some 15 :=
  C6_boundary_exact LoadProfileFactory.init 5 15 10 (by norm_num)
    ⟨[Phase.mk 0 10 5 15 1], 10⟩ (Phase.mk 0 10 5 15 1)
    (Or.inr (by
      simp only [LoadProfileFactory.stress_ramp, LoadProfileFactory.init,
        Option.some.injEq, LoadProfileFactory.mk.injEq, Phase.mk.injEq]
      norm_num))
    (by simp)

/-! ### C3 -/

/-- C3 counterexample: `ramp_up(10, -1)` on a fresh builder raises
nothing (no `InvalidPhaseError` exists in the code) and appends a phase,
contradicting the claim that every duration ≤ 0 is rejected. -/
theorem C3_counterexample :
    (LoadProfileFactory.init.ramp_up 10 (-1)).isSome = true ∧
    LoadProfileFactory.init.ramp_up 10 (-1) =
      some ⟨[⟨0, -1, 0, 10, -10⟩], -1⟩ := by
  have h : LoadProfileFactory.init.ramp_up 10 (-1) = some ⟨[⟨0, -1, 0, 10, -10⟩], -1⟩ := by
    simp only [LoadProfileFactory.ramp_up, LoadProfileFactory.init, List.getLast?_nil,
      Option.some.injEq, LoadProfileFactory.mk.injEq, Phase.mk.injEq]
    norm_num
  exact ⟨by rw [h]; rfl, h⟩

/-- C3 amended: `ramp_up(to_users, d)` with `d = 0` raises
ZeroDivisionError (not `InvalidPhaseError`) and appends no phase; for
every `d ≠ 0` — including negative durations, which are not rejected — it
appends a phase whose `user_start` is the previous phase's `user_end` (0
if first) and whose spawn rate is `(to_users - from_users) / d`, and
advances the cursor by `d`. -/
theorem C3_ramp_up_behavior (f : LoadProfileFactory) (tu : ℤ) (d : ℚ) :
    (d = 0 → f.ramp_up tu d = none) ∧
    (d ≠ 0 → ∀ g, f.ramp_up tu d = some g →
      g.phases.length = f.phases.length + 1 ∧
      g.phases.getLast? =
        some ⟨f.current_time, d, lastUserEnd f, tu,
              ((tu : ℚ) - ((lastUserEnd f : ℤ) : ℚ)) / d⟩ ∧
      g.current_time = f.current_time + d) := by
  constructor
  · intro hz
    unfold LoadProfileFactory.ramp_up
    rw [if_pos hz]
  · intro hz g hg
    unfold LoadProfileFactory.ramp_up at hg
    rw [if_neg hz] at hg
    obtain rfl : _ = g := Option.some_injective _ hg
    refine ⟨by simp, ?_, rfl⟩
    rw [List.getLast?_concat]
    unfold lastUserEnd
    rfl

/-- Witness for C3 amended: `ramp_up(10, 2)` on a fresh builder appends
the phase from 0 to 10 users with spawn rate 5 and moves the cursor to
2. -/
theorem C3_witness :
    ({ phases := [⟨0, 2, 0, 10, 5⟩], current_time := 2 } : LoadProfileFactory).phases.length =
      LoadProfileFactory.init.phases.length + 1 ∧
    ({ phases := [⟨0, 2, 0, 10, 5⟩], current_time := 2 } : LoadProfileFactory).phases.getLast? =
      some ⟨LoadProfileFactory.init.current_time, 2, lastUserEnd LoadProfileFactory.init, 10,
            ((10 : ℚ) - ((lastUserEnd LoadProfileFactory.init : ℤ) : ℚ)) / 2⟩ ∧
    ({ phases := [⟨0, 2, 0, 10, 5⟩], current_time := 2 } : LoadProfileFactory).current_time =
      LoadProfileFactory.init.current_time + 2 :=
  (C3_ramp_up_behavior LoadProfileFactory.init 10 2).2 (by norm_num) _ (by
    simp only [LoadProfileFactory.ramp_up, LoadProfileFactory.init, List.getLast?_nil,
      Option.some.injEq, LoadProfileFactory.mk.injEq, Phase.mk.injEq]
    norm_num)

/-! ### C4 -/

/-- C4 counterexample: the phase appended by `spike(10)` has duration
1/10 (= the Python literal 0.1), not 0; the claim that the spike phase
has `duration == 0` is false. -/
theorem C4_counterexample :
    ((LoadProfileFactory.init.spike 10).phases.getD 0 ⟨0, 0, 0, 0, 0⟩).duration = 1 / 10 ∧
    ¬((1 : ℚ) / 10 = 0) := by
  constructor
  · simp [LoadProfileFactory.spike, LoadProfileFactory.init]
  · norm_num

/-- C4 amended: `spike(u)` appends a phase of duration equal to the fixed
implementation epsilon 0.1 (not 0) whose user count is fixed at `u` at
both ends, and advances the cursor by the same positive epsilon. -/
theorem C4_spike_behavior (f : LoadProfileFactory) (u : ℤ) :
    ∃ eps : ℚ, 0 < eps ∧
      (f.spike u).phases = f.phases ++ [⟨f.current_time, eps, u, u, (u : ℚ)⟩] ∧
      (f.spike u).current_time = f.current_time + eps := by
  exact ⟨1 / 10, by norm_num, rfl, rfl⟩

/-! ### C7: contiguity of the built phase sequence -/

/-- Adjacency of two phases: the later starts where the earlier ends. -/
def phaseAdj (p q : Phase) : Prop := q.start_time = p.start_time + p.duration

/-- Invariant every directive maintains: the first phase starts at 0,
consecutive phases are adjacent, and the cursor sits at the end of the
last phase (at 0 while the builder is empty). -/
def BuilderInv (f : LoadProfileFactory) : Prop :=
  (∀ p, f.phases.head? = some p → p.start_time = 0) ∧
  List.Chain' phaseAdj f.phases ∧
  (∀ p, f.phases.getLast? = some p → f.current_time = p.start_time + p.duration) ∧
  (f.phases = [] → f.current_time = 0)

lemma builderInv_init : BuilderInv LoadProfileFactory.init := by
  refine ⟨?_, ?_, ?_, ?_⟩ <;> simp [LoadProfileFactory.init]

lemma builderInv_append (f : LoadProfileFactory) (hf : BuilderInv f) (p : Phase)
    (hs : p.start_time = f.current_time) :
    BuilderInv ⟨f.phases ++ [p], f.current_time + p.duration⟩ := by
  obtain ⟨h0, hc, hlast, hemp⟩ := hf
  refine ⟨?_, ?_, ?_, ?_⟩
  · intro q hq
    rcases eq_or_ne f.phases [] with he | he
    · rw [he] at hq
      simp only [List.nil_append, List.head?_cons, Option.some.injEq] at hq
      rw [← hq, hs, hemp he]
    · rw [List.head?_append_of_ne_nil _ he] at hq
      exact h0 q hq
  · rw [List.chain'_append]
    refine ⟨hc, List.chain'_singleton p, ?_⟩
    intro x hx y hy
    simp only [List.head?_cons, Option.mem_def, Option.some.injEq] at hy
    rw [Option.mem_def] at hx
    subst hy
    unfold phaseAdj
    rw [hs, hlast x hx]
  · intro q hq
    rw [List.getLast?_concat] at hq
    obtain rfl : p = q := Option.some_injective _ hq
    rw [hs]
  · intro h
    simp at h
lemma builderInv_applyDirective (f : LoadProfileFactory) (d : Directive)
    (g : LoadProfileFactory) (hf : BuilderInv f) (h : applyDirective f d = some g) :
    BuilderInv g := by
  cases d with
  | spike u =>
    obtain rfl : f.spike u = g := Option.some_injective _ h
    exact builderInv_append f hf ⟨f.current_time, 1/10, u, u, (u : ℚ)⟩ rfl
  | ramp_up tu dur =>
    simp only [applyDirective] at h
    unfold LoadProfileFactory.ramp_up at h
    by_cases hz : dur = 0
    · rw [if_pos hz] at h
      exact absurd h (by simp)
    · rw [if_neg hz] at h
      obtain rfl : _ = g := Option.some_injective _ h
      exact builderInv_append f hf _ rfl
  | steady_users u dur =>
    obtain rfl : f.steady_users u dur = g := Option.some_injective _ h
    exact builderInv_append f hf ⟨f.current_time, dur, u, u, 1⟩ rfl
  | stress_ramp a b dur =>
    simp only [applyDirective] at h
    unfold LoadProfileFactory.stress_ramp at h
    by_cases hz : dur = 0
    · rw [if_pos hz] at h
      exact absurd h (by simp)
    · rw [if_neg hz] at h
      obtain rfl : _ = g := Option.some_injective _ h
      exact builderInv_append f hf _ rfl

lemma builderInv_applyAll : ∀ (ds : List Directive) (f g : LoadProfileFactory),
    BuilderInv f → applyAll f ds = some g → BuilderInv g
  | [], f, g, hf, h => by
    obtain rfl : f = g := Option.some_injective _ h
    exact hf
  | d :: ds, f, g, hf, h => by
    unfold applyAll at h
    cases hd : applyDirective f d with
    | none => rw [hd] at h; exact absurd h (by simp)
    | some f2 =>
      rw [hd] at h
      exact builderInv_applyAll ds f2 g (builderInv_applyDirective f d f2 hf hd) h

/-- C7: a profile built by any chain of directives on a fresh builder has
its first phase starting at elapsed time 0 and every later phase starting
exactly where the previous one ends: the phases are contiguous,
non-overlapping and ordered by construction. -/
theorem C7_contiguous (ds : List Directive) (g : LoadProfileFactory)
    (h : buildProfile ds = some g) :
    (∀ p, g.phases.head? = some p → p.start_time = 0) ∧
    (∀ i, i + 1 < g.phases.length →
      (g.phases.getD (i + 1) ⟨0, 0, 0, 0, 0⟩).start_time =
        (g.phases.getD i ⟨0, 0, 0, 0, 0⟩).start_time +
          (g.phases.getD i ⟨0, 0, 0, 0, 0⟩).duration) := by
  have hinv := builderInv_applyAll ds LoadProfileFactory.init g builderInv_init h
  refine ⟨hinv.1, ?_⟩
  intro i hi
  have hc := hinv.2.1
  rw [List.chain'_iff_get] at hc
  have hadj := hc i (by omega)
  unfold phaseAdj at hadj
  rw [List.getD_eq_get _ _ hi, List.getD_eq_get _ _ (by omega)]
  exact hadj

/-- The directive chain `steady_users(5, 2).stress_ramp(5, 15, 10)` and
the profile it builds, used by the C7 and C8 witnesses. -/
def exDirs : List Directive := [.steady_users 5 2, .stress_ramp 5 15 10]

/-- The profile built by `exDirs`. -/
def profEx : LoadProfileFactory := ⟨[⟨0, 2, 5, 5, 1⟩, ⟨2, 10, 5, 15, 1⟩], 12⟩

lemma buildProfile_exDirs : buildProfile exDirs = some profEx := by
  simp only [buildProfile, exDirs, applyAll, applyDirective, LoadProfileFactory.init,
    LoadProfileFactory.steady_users, LoadProfileFactory.stress_ramp, List.nil_append]
  norm_num [profEx, Phase.mk.injEq, LoadProfileFactory.mk.injEq]

/-- Witness for C7: in the profile built by `exDirs`, the second phase
starts exactly where the first ends. -/
theorem C7_witness :
    (profEx.phases.getD 1 ⟨0, 0, 0, 0, 0⟩).start_time =
      (profEx.phases.getD 0 ⟨0, 0, 0, 0, 0⟩).start_time +
        (profEx.phases.getD 0 ⟨0, 0, 0, 0, 0⟩).duration :=
  (C7_contiguous exDirs profEx buildProfile_exDirs).2 0 (by simp [profEx])

/-! ### C8: first-match tick scan and end-of-schedule absence -/

lemma tick_eq_tickSpec : ∀ (l : List Phase) (t : ℚ), tick l t = tickSpec l t
  | [], _ => rfl
  | p :: rest, t => by
    unfold tick tickSpec
    cases h : p.user_count_at t with
    | some u => simp [List.find?_cons, h]
    | none =>
      simp only [List.find?_cons, h, Option.isSome_none]
      have := tick_eq_tickSpec rest t
      unfold tickSpec at this
      simpa using this

lemma user_count_at_none_of_end_lt (p : Phase) (t : ℚ)
    (h : p.start_time + p.duration < t) : p.user_count_at t = none := by
  unfold Phase.user_count_at
  rw [if_pos (Or.inr h)]

lemma tick_none_of_forall (t : ℚ) :
    ∀ (l : List Phase), (∀ p ∈ l, p.user_count_at t = none) → tick l t = none
  | [], _ => rfl
  | p :: rest, h => by
    unfold tick
    rw [h p (List.mem_cons_self p rest)]
    exact tick_none_of_forall t rest fun q hq => h q (List.mem_cons_of_mem p hq)

lemma phase_end_le_last : ∀ (l : List Phase), List.Chain' phaseAdj l →
    (∀ p ∈ l, 0 ≤ p.duration) → ∀ q, l.getLast? = some q →
    ∀ p ∈ l, p.start_time + p.duration ≤ q.start_time + q.duration
  | [] => by
    intro _ _ q hq
    simp at hq
  | [p0] => by
    intro _ _ q hq p hp
    simp only [List.getLast?_singleton, Option.some.injEq] at hq
    simp only [List.mem_singleton] at hp
    rw [hp, ← hq]
  | p0 :: p1 :: rest => by
    intro hc hd q hq p hp
    rw [List.chain'_cons] at hc
    rw [List.getLast?_cons_cons] at hq
    have ih := phase_end_le_last (p1 :: rest) hc.2
      (fun r hr => hd r (List.mem_cons_of_mem p0 hr)) q hq
    rcases List.mem_cons.mp hp with rfl | hp2
    · have h1 : p1.start_time = p.start_time + p.duration := hc.1
      have h2 : p1.start_time + p1.duration ≤ q.start_time + q.duration :=
        ih p1 (List.mem_cons_self _ _)
      have h3 : 0 ≤ p1.duration := hd p1 (by simp)
      linarith
    · exact ih p hp2

/-- C8: over a built profile, `tick` scans the phases in construction
order and returns the `(user_count_at(t), spawn_rate)` pair of the first
phase whose `user_count_at(t)` is non-absent (first-match-wins), and — as
long as the data model's `duration ≥ 0` holds of the phases — returns
`none` whenever `t` exceeds the end of the last phase. -/
theorem C8_tick_first_match (ds : List Directive) (g : LoadProfileFactory)
    (h : buildProfile ds = some g) (hd : ∀ p ∈ g.phases, 0 ≤ p.duration) (t : ℚ) :
    tick g.phases t = tickSpec g.phases t ∧
    (∀ q, g.phases.getLast? = some q → q.start_time + q.duration < t →
      tick g.phases t = none) := by
  refine ⟨tick_eq_tickSpec _ _, ?_⟩
  intro q hq hlt
  have hinv := builderInv_applyAll ds LoadProfileFactory.init g builderInv_init h
  apply tick_none_of_forall
  intro p hp
  apply user_count_at_none_of_end_lt
  have := phase_end_le_last g.phases hinv.2.1 hd q hq p hp
  linarith

/-- Witness for C8: the profile built by `exDirs` ends at elapsed time
12; sampling at 13 agrees with the first-match contract and is absent. -/
theorem C8_witness :
    tick profEx.phases 13 = tickSpec profEx.phases 13 ∧ tick profEx.phases 13 = none := by
  have h := C8_tick_first_match exDirs profEx buildProfile_exDirs
    (by
      intro p hp
      simp only [profEx, List.mem_cons, List.mem_singleton, List.not_mem_nil, or_false] at hp
      rcases hp with rfl | rfl <;> norm_num) 13
  exact ⟨h.1, h.2 ⟨2, 10, 5, 15, 1⟩ rfl (by norm_num)⟩

/-! ### C9: validate is the conjunction of the recorded outcomes -/

lemma applyCheck_response (v : ResponseValidator) (c : Check) :
    (applyCheck v c).response = v.response := by
  cases c with
  | status_is s => rfl
  | has_header h => rfl
  | json_contains k =>
    simp only [applyCheck, ResponseValidator.json_contains]
    cases v.response.body_json <;> rfl
  | json_matches sc =>
    simp only [applyCheck, ResponseValidator.json_matches]
    cases v.response.body_json <;> rfl

lemma validate_applyCheck (v : ResponseValidator) (c : Check) :
    (applyCheck v c).validate = (v.validate && checkOutcome v.response c) := by
  cases c with
  | status_is s =>
    simp [applyCheck, ResponseValidator.status_is, ResponseValidator.validate, checkOutcome,
      List.all_append]
  | has_header h =>
    simp [applyCheck, ResponseValidator.has_header, ResponseValidator.validate, checkOutcome,
      List.all_append]
  | json_contains k =>
    simp only [applyCheck, ResponseValidator.json_contains, checkOutcome]
    cases v.response.body_json <;>
      simp [ResponseValidator.validate, List.all_append]
  | json_matches sc =>
    simp only [applyCheck, ResponseValidator.json_matches, checkOutcome]
    cases v.response.body_json <;>
      simp [ResponseValidator.validate, List.all_append]

lemma validate_applyChecks : ∀ (cs : List Check) (v : ResponseValidator),
    (applyChecks v cs).validate = (v.validate && cs.all fun c => checkOutcome v.response c)
  | [], v => by simp [applyChecks]
  | c :: cs, v => by
    unfold applyChecks
    rw [List.foldl_cons]
    have ih := validate_applyChecks cs (applyCheck v c)
    unfold applyChecks at ih
    rw [ih, applyCheck_response, validate_applyCheck, List.all_cons, Bool.and_assoc]

/-- C9: for any response and any chain of validator calls, `validate()`
is the conjunction of the recorded check outcomes, and with zero recorded
checks it is `True` (vacuous pass). -/
theorem C9_validate_conjunction (r : Response) (cs : List Check) :
    (applyChecks ⟨r, []⟩ cs).validate = (cs.all fun c => checkOutcome r c) ∧
    (ResponseValidator.mk r []).validate = true := by
  refine ⟨?_, rfl⟩
  rw [validate_applyChecks]
  rfl

/-! ### C10: status mismatch yields a failure mark and the empty mapping -/

/-- C10: whenever the status differs from `expected_status`,
`make_request` marks the transport call failed and returns `{}`, so the
mapping handed back to `sendRequest` carries no `status_code` key,
whatever status actually came back. -/
theorem C10_mismatch_empty (r : Response) (e : ℤ) (h : r.status_code ≠ e) :
    make_request r e = ⟨[], true⟩ ∧
    (make_request r e).result.lookup "status_code" = none := by
  have hm : make_request r e = ⟨[], true⟩ := by
    unfold make_request
    rw [if_neg h]
  exact ⟨hm, by rw [hm]; rfl⟩

/-- Witness for C10: a 503 against expected 200 is marked failed and
yields the empty mapping even though the body decoded fine. -/
theorem C10_witness :
    make_request ⟨503, [], some [("error", JVal.jstr "oops")], "body"⟩ 200 = ⟨[], true⟩ ∧
    (make_request ⟨503, [], some [("error", JVal.jstr "oops")], "body"⟩ 200).result.lookup
      "status_code" = none :=
  C10_mismatch_empty ⟨503, [], some [("error", JVal.jstr "oops")], "body"⟩ 200 (by decide)

/-! ### C1 and C2: the retry loop as it actually runs -/

/-- C1: evaluating `sendRequest` on the claim's own scenario —
`RetryConfig(max_attempts := 3, delay := 1, backoff_factor := 2)`,
expected status 200, every attempt answering 503.  Because
`make_request` returns `{}` on the status mismatch, the loop's
`status_code` lookup finds nothing retryable: the code performs exactly
one attempt, sleeps never, and returns `{}` — not three attempts ending
in the failing response. -/
theorem C1_retry_on_status_dead :
    sendRequest (some ⟨3, 1, 2, [500, 502, 503, 504]⟩) 200
        (fun _ => .response ⟨503, [], some [], ""⟩) =
      some ⟨.returned [], 1, []⟩ := rfl

/-- C2: evaluating `sendRequest` when every attempt raises a transport
exception.  With `max_attempts = 1` the code performs 2 attempts before
propagating; with `max_attempts = 3` it performs 4 attempts (sleeping 1,
2, 4 seconds in between) — always `max_attempts + 1` attempts, exceeding
the claimed bound of at most `max_attempts`. -/
theorem C2_attempts_exceed_max :
    sendRequest (some ⟨1, 1, 2, [500, 502, 503, 504]⟩) 200 (fun _ => .exn) =
      some ⟨.raised, 2, [1]⟩ ∧
    sendRequest (some ⟨3, 1, 2, [500, 502, 503, 504]⟩) 200 (fun _ => .exn) =
      some ⟨.raised, 4, [1, 2, 4]⟩ := by
  constructor <;> norm_num [sendRequest, sendLoop]

end Locust
